import Mathlib

/-!
# Verification of `codes/models/gpt_voice/voice_clip.py` (VoiceCLIP)

A shallow embedding of the VoiceCLIP contrastive dual-encoder model.
Tensors are modelled as curried real-valued functions over ℕ indices with
explicit size parameters; sums along a dimension of size `n` are finite sums
over `Finset.range n`.  Index lookups into embedding tables are fallible
(PyTorch raises an out-of-range indexing error), so batched lookups return
`Option`.  The two transformer encoders are external primitives in the source
(`models.lucidrains.dalle.transformer.Transformer`); they are carried as
opaque shape-preserving function fields of the model, exactly as the spec
treats them (an external reusable building block with a fixed contract).

Real arithmetic is exact: floating-point rounding is abstracted away, so
"within numeric tolerance" statements of the spec become exact equalities.
-/

noncomputable section

namespace VoiceClipModel

/-- A batch of token ids: `tokens i j` is the id at batch index `i`,
sequence position `j`. -/
abbrev TokenBatch := ℕ → ℕ → ℕ

/-- A rank-3 tensor `b × L × d`: batch index, position, feature. -/
abbrev Tensor3 := ℕ → ℕ → ℕ → ℝ

/-- A rank-2 tensor `b × d`: batch index, feature. -/
abbrev Tensor2 := ℕ → ℕ → ℝ

/-- A boolean mask `b × L`. -/
abbrev Mask := ℕ → ℕ → Bool

/-- `nn.Embedding(numEmbeddings, embeddingDim)`: a dense table of
`numEmbeddings` rows of dimension `embeddingDim`. -/
structure Embedding where
  numEmbeddings : ℕ
  embeddingDim : ℕ
  weight : ℕ → ℕ → ℝ

/-- Batched embedding lookup `e(tokens)` over a `b × L` id batch.  PyTorch
raises an out-of-range index error as soon as any id is `≥ numEmbeddings`;
we model the whole lookup as `none` in that case. -/
def embedBatch (e : Embedding) (b L : ℕ) (tokens : TokenBatch) : Option Tensor3 :=
  if ∀ i ∈ Finset.range b, ∀ j ∈ Finset.range L, tokens i j < e.numEmbeddings then
    some (fun i j k => e.weight (tokens i j) k)
  else
    none

/-- Positional-embedding lookup `e(torch.arange(L))`: looks up rows
`0, …, L-1`, which succeeds exactly when `L ≤ numEmbeddings`. -/
def posEmbBatch (e : Embedding) (L : ℕ) : Option Tensor2 :=
  if L ≤ e.numEmbeddings then some (fun j k => e.weight j k) else none

/-- Source `masked_mean(t, mask, dim=1)`:
`t.masked_fill(~mask[:, :, None], 0.).sum(dim=1) / mask.sum(dim=1)[..., None]`. -/
def masked_mean (L : ℕ) (t : Tensor3) (mask : Mask) : Tensor2 :=
  fun i k =>
    (∑ j ∈ Finset.range L, if mask i j then t i j k else 0) /
      (∑ j ∈ Finset.range L, if mask i j then (1 : ℝ) else 0)

/-- `t.mean(dim=1)` for a `b × L × d` tensor. -/
def meanDim1 (L : ℕ) (t : Tensor3) : Tensor2 :=
  fun i k => (∑ j ∈ Finset.range L, t i j k) / L

/-- `nn.Linear(dIn, dOut, bias=False)` applied to a `b × dIn` batch:
`y i o = ∑ k, W o k * x i k` (PyTorch stores the weight as `out × in`). -/
def linearNoBias (W : ℕ → ℕ → ℝ) (dIn : ℕ) (x : Tensor2) : Tensor2 :=
  fun i o => ∑ k ∈ Finset.range dIn, W o k * x i k

/-- Euclidean norm of the first `d` coordinates of a vector. -/
def l2norm (d : ℕ) (v : ℕ → ℝ) : ℝ :=
  Real.sqrt (∑ k ∈ Finset.range d, v k ^ 2)

/-- The default `eps` of `torch.nn.functional.normalize` (`1e-12`). -/
def normalizeEps : ℝ := 1 / 10 ^ 12

/-- `F.normalize(v, p=2, dim=-1)` on one row: `v / max(‖v‖₂, eps)`. -/
def normalizeRow (d : ℕ) (v : ℕ → ℝ) : ℕ → ℝ :=
  fun k => v k / max (l2norm d v) normalizeEps

/-- `F.normalize(x, p=2, dim=-1)` applied row-wise to a `b × d` batch. -/
def normalizeRows (d : ℕ) (x : Tensor2) : Tensor2 :=
  fun i => normalizeRow d (x i)

/-- Dot product of the first `d` coordinates of two vectors. -/
def dotRow (d : ℕ) (u v : ℕ → ℝ) : ℝ :=
  ∑ k ∈ Finset.range d, u k * v k

/-- `torch.nn.functional.cross_entropy(logits, labels)` with the default
mean reduction, for a `b × b` logit matrix: mean over the batch of
`logsumexp(logits i) - logits i (labels i)`. -/
def cross_entropy (b : ℕ) (logits : ℕ → ℕ → ℝ) (labels : ℕ → ℕ) : ℝ :=
  (∑ i ∈ Finset.range b,
      (Real.log (∑ j ∈ Finset.range b, Real.exp (logits i j)) - logits i (labels i))) / b

/-- Construction configuration of `VoiceCLIP.__init__` (its keyword
parameters, all positive integers). -/
structure CLIPConfig where
  dim_text : ℕ
  dim_speech : ℕ
  dim_latent : ℕ
  num_text_tokens : ℕ
  text_enc_depth : ℕ
  text_seq_len : ℕ
  text_heads : ℕ
  num_speech_tokens : ℕ
  speech_enc_depth : ℕ
  speech_heads : ℕ
  speech_seq_len : ℕ

/-- The documented defaults of `VoiceCLIP.__init__`. -/
def defaultConfig : CLIPConfig :=
  { dim_text := 512
    dim_speech := 512
    dim_latent := 512
    num_text_tokens := 10000
    text_enc_depth := 6
    text_seq_len := 200
    text_heads := 8
    num_speech_tokens := 8192
    speech_enc_depth := 6
    speech_heads := 8
    speech_seq_len := 250 }

/-- A shape-preserving sequence encoder taking a `b × L × d` tensor and an
optional `b × L` mask (the contract of the external `Transformer`). -/
abbrev MaskedEncoder := ℕ → ℕ → Tensor3 → Option Mask → Tensor3

/-- A shape-preserving sequence encoder taking a `b × L × d` tensor (the
speech path never passes a mask). -/
abbrev PlainEncoder := ℕ → ℕ → Tensor3 → Tensor3

/-- The VoiceCLIP model state: its configuration plus every weight created
in `__init__` (embedding tables, the two transformer encoders, the two
bias-free latent projections, and the temperature scalar). -/
structure VoiceCLIP where
  cfg : CLIPConfig
  text_emb : Embedding
  text_pos_emb : Embedding
  text_transformer : MaskedEncoder
  to_text_latent : ℕ → ℕ → ℝ
  speech_emb : Embedding
  speech_pos_emb : Embedding
  speech_transformer : PlainEncoder
  to_speech_latent : ℕ → ℕ → ℝ
  temperature : ℝ

/-- `VoiceCLIP.__init__`: builds every module with the sizes written in the
source.  Note line 51 of the source: `self.speech_pos_emb =
nn.Embedding(num_speech_tokens, dim_speech)` — the speech positional table
is sized to the speech vocabulary count, unlike the text positional table
(line 45) which is sized to `text_seq_len`.  The initial weight contents
and the two transformer encoders are parameters (the source initializes
weights randomly; the transformers are external primitives).
`self.temperature = nn.Parameter(torch.tensor(1.))`. -/
def VoiceCLIP.init (cfg : CLIPConfig)
    (textEmbW textPosW speechEmbW speechPosW : ℕ → ℕ → ℝ)
    (textTr : MaskedEncoder) (speechTr : PlainEncoder)
    (toTextW toSpeechW : ℕ → ℕ → ℝ) : VoiceCLIP :=
  { cfg := cfg
    text_emb := ⟨cfg.num_text_tokens, cfg.dim_text, textEmbW⟩
    text_pos_emb := ⟨cfg.text_seq_len, cfg.dim_text, textPosW⟩
    text_transformer := textTr
    to_text_latent := toTextW
    speech_emb := ⟨cfg.num_speech_tokens, cfg.dim_speech, speechEmbW⟩
    speech_pos_emb := ⟨cfg.num_speech_tokens, cfg.dim_speech, speechPosW⟩
    speech_transformer := speechTr
    to_speech_latent := toSpeechW
    temperature := 1 }

/-- The output of `VoiceCLIP.forward`: a length-`b` vector of similarity
scores (score mode) or a single scalar loss (loss mode). -/
inductive FwdOut where
  | scores (s : ℕ → ℝ) : FwdOut
  | loss (l : ℝ) : FwdOut

/-- `VoiceCLIP.forward(text, speech_tokens, text_mask, return_loss)`,
translated line by line.  `b` is the batch size, `Lt`/`Ls` the text/speech
sequence lengths (`text.shape[1]` / `speech_tokens.shape[1]`).  Embedding
lookups are the fallible steps; everything downstream is total. -/
def VoiceCLIP.forward (m : VoiceCLIP) (b Lt Ls : ℕ)
    (text speech_tokens : TokenBatch) (text_mask : Option Mask)
    (return_loss : Bool) : Option FwdOut :=
  (embedBatch m.text_emb b Lt text).bind fun text_emb0 =>
  (posEmbBatch m.text_pos_emb Lt).bind fun text_pos =>
  let text_emb : Tensor3 := fun i j k => text_emb0 i j k + text_pos j k
  (embedBatch m.speech_emb b Ls speech_tokens).bind fun speech_emb0 =>
  (posEmbBatch m.speech_pos_emb Ls).bind fun speech_pos =>
  let speech_emb : Tensor3 := fun i j k => speech_emb0 i j k + speech_pos j k
  let enc_text := m.text_transformer b Lt text_emb text_mask
  let enc_speech := m.speech_transformer b Ls speech_emb
  let text_latents0 : Tensor2 :=
    match text_mask with
    | some mask => masked_mean Lt enc_text mask
    | none => meanDim1 Lt enc_text
  let speech_latents0 : Tensor2 := meanDim1 Ls enc_speech
  let text_latents1 := linearNoBias m.to_text_latent m.cfg.dim_text text_latents0
  let speech_latents1 := linearNoBias m.to_speech_latent m.cfg.dim_speech speech_latents0
  let text_latents := normalizeRows m.cfg.dim_latent text_latents1
  let speech_latents := normalizeRows m.cfg.dim_latent speech_latents1
  let temp := Real.exp m.temperature
  if return_loss then
    let sim : ℕ → ℕ → ℝ :=
      fun i j => dotRow m.cfg.dim_latent (text_latents i) (speech_latents j) * temp
    some (FwdOut.loss
      ((cross_entropy b sim (fun i => i) +
        cross_entropy b (fun i j => sim j i) (fun i => i)) / 2))
  else
    some (FwdOut.scores
      (fun n => dotRow m.cfg.dim_latent (text_latents n) (speech_latents n) * temp))

/-- The text-path value just before normalization, on a successful call:
embedding+position → text transformer → (masked or plain) mean pooling →
bias-free latent projection. -/
def VoiceCLIP.textLatentPre (m : VoiceCLIP) (b Lt : ℕ) (text : TokenBatch)
    (text_mask : Option Mask) : Tensor2 :=
  let emb : Tensor3 := fun i j k => m.text_emb.weight (text i j) k + m.text_pos_emb.weight j k
  let enc := m.text_transformer b Lt emb text_mask
  let pooled : Tensor2 :=
    match text_mask with
    | some mask => masked_mean Lt enc mask
    | none => meanDim1 Lt enc
  linearNoBias m.to_text_latent m.cfg.dim_text pooled

/-- The normalized text latents of a successful call. -/
def VoiceCLIP.textLatents (m : VoiceCLIP) (b Lt : ℕ) (text : TokenBatch)
    (text_mask : Option Mask) : Tensor2 :=
  normalizeRows m.cfg.dim_latent (m.textLatentPre b Lt text text_mask)

/-- The speech-path value just before normalization, on a successful call:
embedding+position → speech transformer → plain mean pooling → bias-free
latent projection (the speech path never receives a mask). -/
def VoiceCLIP.speechLatentPre (m : VoiceCLIP) (b Ls : ℕ)
    (speech_tokens : TokenBatch) : Tensor2 :=
  let emb : Tensor3 :=
    fun i j k => m.speech_emb.weight (speech_tokens i j) k + m.speech_pos_emb.weight j k
  let enc := m.speech_transformer b Ls emb
  linearNoBias m.to_speech_latent m.cfg.dim_speech (meanDim1 Ls enc)

/-- The normalized speech latents of a successful call. -/
def VoiceCLIP.speechLatents (m : VoiceCLIP) (b Ls : ℕ)
    (speech_tokens : TokenBatch) : Tensor2 :=
  normalizeRows m.cfg.dim_latent (m.speechLatentPre b Ls speech_tokens)

/-- The `b × b` scaled similarity matrix of loss mode: row `i` is text
example `i`, column `j` is speech example `j`, each entry a dot product of
normalized latents scaled by `exp(temperature)`. -/
def VoiceCLIP.simMatrix (m : VoiceCLIP) (b Lt Ls : ℕ)
    (text speech_tokens : TokenBatch) (text_mask : Option Mask) : ℕ → ℕ → ℝ :=
  fun i j =>
    dotRow m.cfg.dim_latent (m.textLatents b Lt text text_mask i)
        (m.speechLatents b Ls speech_tokens j) * Real.exp m.temperature

/-- Validity of a call: every token id is inside its modality's vocabulary
and both positional lookups are in range. -/
def VoiceCLIP.validCall (m : VoiceCLIP) (b Lt Ls : ℕ)
    (text speech_tokens : TokenBatch) : Prop :=
  (∀ i ∈ Finset.range b, ∀ j ∈ Finset.range Lt, text i j < m.text_emb.numEmbeddings) ∧
  Lt ≤ m.text_pos_emb.numEmbeddings ∧
  (∀ i ∈ Finset.range b, ∀ j ∈ Finset.range Ls, speech_tokens i j < m.speech_emb.numEmbeddings) ∧
  Ls ≤ m.speech_pos_emb.numEmbeddings

instance (m : VoiceCLIP) (b Lt Ls : ℕ) (text speech_tokens : TokenBatch) :
    Decidable (m.validCall b Lt Ls text speech_tokens) := by
  unfold VoiceCLIP.validCall
  infer_instance

/-- The forward pass with the model state threaded explicitly: the source
method body reads `self.*` but never assigns to any field of `self`, so the
post-call model state is the pre-call state. -/
def VoiceCLIP.forwardRun (m : VoiceCLIP) (b Lt Ls : ℕ)
    (text speech_tokens : TokenBatch) (text_mask : Option Mask)
    (return_loss : Bool) : Option FwdOut × VoiceCLIP :=
  (m.forward b Lt Ls text speech_tokens text_mask return_loss, m)

/-- A minimal configuration (all dimensions, vocabularies and sequence
lengths equal to 1) used to evaluate the model on concrete inputs. -/
def tinyConfig : CLIPConfig :=
  { dim_text := 1
    dim_speech := 1
    dim_latent := 1
    num_text_tokens := 1
    text_enc_depth := 6
    text_seq_len := 1
    text_heads := 8
    num_speech_tokens := 1
    speech_enc_depth := 6
    speech_heads := 8
    speech_seq_len := 1 }

/-- A concrete tiny model: every embedding weight 0, both transformer
encoders constantly 1, both projection weights 1. -/
def oneModel : VoiceCLIP :=
  VoiceCLIP.init tinyConfig (fun _ _ => 0) (fun _ _ => 0) (fun _ _ => 0) (fun _ _ => 0)
    (fun _ _ _ _ => fun _ _ _ => 1) (fun _ _ _ => fun _ _ _ => 1)
    (fun _ _ => 1) (fun _ _ => 1)

/-- A concrete tiny model whose latent projection weights are all zero, so
every pre-normalization latent is the zero vector. -/
def zeroProjModel : VoiceCLIP :=
  VoiceCLIP.init tinyConfig (fun _ _ => 0) (fun _ _ => 0) (fun _ _ => 0) (fun _ _ => 0)
    (fun _ _ _ _ => fun _ _ _ => 1) (fun _ _ _ => fun _ _ _ => 1)
    (fun _ _ => 0) (fun _ _ => 0)

/-- A concrete model built with the documented default configuration and
zero-initialized weights. -/
def defaultModel : VoiceCLIP :=
  VoiceCLIP.init defaultConfig (fun _ _ => 0) (fun _ _ => 0) (fun _ _ => 0) (fun _ _ => 0)
    (fun _ _ x _ => x) (fun _ _ x => x) (fun _ _ => 0) (fun _ _ => 0)

/-! ## Helper lemmas -/

/-- On a valid call, `forward` succeeds and its value is the composition of
the named pipeline stages: the scaled per-pair dot products in score mode,
and the symmetric cross-entropy of the similarity matrix in loss mode. -/
theorem VoiceCLIP.forward_of_valid (m : VoiceCLIP) (b Lt Ls : ℕ)
    (text speech_tokens : TokenBatch) (text_mask : Option Mask) (return_loss : Bool)
    (h : m.validCall b Lt Ls text speech_tokens) :
    m.forward b Lt Ls text speech_tokens text_mask return_loss =
      some (if return_loss then
        FwdOut.loss
          ((cross_entropy b (m.simMatrix b Lt Ls text speech_tokens text_mask) (fun i => i) +
            cross_entropy b (fun i j => m.simMatrix b Lt Ls text speech_tokens text_mask j i)
              (fun i => i)) / 2)
      else
        FwdOut.scores (fun n =>
          dotRow m.cfg.dim_latent (m.textLatents b Lt text text_mask n)
            (m.speechLatents b Ls speech_tokens n) * Real.exp m.temperature)) := by
  obtain ⟨hT, hTp, hS, hSp⟩ := h
  simp only [VoiceCLIP.forward, embedBatch, posEmbBatch, if_pos hT, if_pos hTp, if_pos hS,
    if_pos hSp, Option.some_bind, VoiceCLIP.simMatrix, VoiceCLIP.textLatents,
    VoiceCLIP.textLatentPre, VoiceCLIP.speechLatents, VoiceCLIP.speechLatentPre]
  split <;> rfl

/-- Cross-entropy with identity labels is non-negative: each row's softmax
probability of the diagonal entry is at most 1. -/
theorem cross_entropy_id_nonneg (b : ℕ) (logits : ℕ → ℕ → ℝ) :
    0 ≤ cross_entropy b logits (fun i => i) := by
  unfold cross_entropy
  apply div_nonneg _ (Nat.cast_nonneg b)
  apply Finset.sum_nonneg
  intro i hi
  rw [sub_nonneg]
  have hpos : (0 : ℝ) < ∑ j ∈ Finset.range b, Real.exp (logits i j) :=
    Finset.sum_pos (fun j _ => Real.exp_pos _) ⟨i, hi⟩
  rw [Real.le_log_iff_exp_le hpos]
  exact Finset.single_le_sum (fun j _ => (Real.exp_pos _).le) hi

/-- Cross-entropy over a single class with identity labels vanishes. -/
theorem cross_entropy_one (logits : ℕ → ℕ → ℝ) :
    cross_entropy 1 logits (fun i => i) = 0 := by
  unfold cross_entropy
  simp [Finset.sum_range_one, Real.log_exp]

/-- Dividing every coordinate by a non-negative constant divides the
Euclidean norm by that constant. -/
theorem l2norm_div_const (d : ℕ) (v : ℕ → ℝ) (c : ℝ) (hc : 0 ≤ c) :
    l2norm d (fun k => v k / c) = l2norm d v / c := by
  unfold l2norm
  simp only [div_pow]
  rw [← Finset.sum_div, Real.sqrt_div (Finset.sum_nonneg fun k _ => sq_nonneg _),
    Real.sqrt_sq hc]

/-- Normalizing a row whose Euclidean norm is at least the library epsilon
yields a unit-norm row. -/
theorem l2norm_normalizeRow (d : ℕ) (v : ℕ → ℝ)
    (h : normalizeEps ≤ l2norm d v) :
    l2norm d (normalizeRow d v) = 1 := by
  have heps : (0 : ℝ) < normalizeEps := by norm_num [normalizeEps]
  have hpos : 0 < l2norm d v := lt_of_lt_of_le heps h
  have hrow : normalizeRow d v = fun k => v k / l2norm d v := by
    unfold normalizeRow
    rw [max_eq_left h]
  rw [hrow, l2norm_div_const d v _ hpos.le, div_self (ne_of_gt hpos)]

/-! ## Claim theorems -/

/-- C1: in loss mode, for every batch of `b` text and `b` speech latents the
returned loss is a scalar equal to the arithmetic mean of the two categorical
cross-entropies over the `b × b` scaled similarity matrix (rows text→speech,
and the transpose speech→text, each with its own index as the correct class),
and for `b ≥ 2` that loss is non-negative. -/
theorem loss_mode_mean_of_two_cross_entropies (m : VoiceCLIP) (b Lt Ls : ℕ)
    (text speech_tokens : TokenBatch) (text_mask : Option Mask)
    (h : m.validCall b Lt Ls text speech_tokens) :
    m.forward b Lt Ls text speech_tokens text_mask true =
      some (FwdOut.loss
        ((cross_entropy b (m.simMatrix b Lt Ls text speech_tokens text_mask) (fun i => i) +
          cross_entropy b (fun i j => m.simMatrix b Lt Ls text speech_tokens text_mask j i)
            (fun i => i)) / 2)) ∧
    (2 ≤ b →
      0 ≤ (cross_entropy b (m.simMatrix b Lt Ls text speech_tokens text_mask) (fun i => i) +
          cross_entropy b (fun i j => m.simMatrix b Lt Ls text speech_tokens text_mask j i)
            (fun i => i)) / 2) := by
  refine ⟨?_, fun _ => ?_⟩
  · simpa using m.forward_of_valid b Lt Ls text speech_tokens text_mask true h
  · have h1 := cross_entropy_id_nonneg b (m.simMatrix b Lt Ls text speech_tokens text_mask)
    have h2 := cross_entropy_id_nonneg b
      (fun i j => m.simMatrix b Lt Ls text speech_tokens text_mask j i)
    linarith

/-- Witness for C1 at a concrete batch of size 2. -/
theorem loss_mode_mean_of_two_cross_entropies_witness :
    oneModel.validCall 2 1 1 (fun _ _ => 0) (fun _ _ => 0) ∧
    (oneModel.forward 2 1 1 (fun _ _ => 0) (fun _ _ => 0) none true =
      some (FwdOut.loss
        ((cross_entropy 2 (oneModel.simMatrix 2 1 1 (fun _ _ => 0) (fun _ _ => 0) none)
            (fun i => i) +
          cross_entropy 2 (fun i j => oneModel.simMatrix 2 1 1 (fun _ _ => 0) (fun _ _ => 0) none j i)
            (fun i => i)) / 2)) ∧
     (2 ≤ 2 →
      0 ≤ (cross_entropy 2 (oneModel.simMatrix 2 1 1 (fun _ _ => 0) (fun _ _ => 0) none)
            (fun i => i) +
          cross_entropy 2 (fun i j => oneModel.simMatrix 2 1 1 (fun _ _ => 0) (fun _ _ => 0) none j i)
            (fun i => i)) / 2)) := by
  have hv : oneModel.validCall 2 1 1 (fun _ _ => 0) (fun _ _ => 0) := by decide
  exact ⟨hv, loss_mode_mean_of_two_cross_entropies oneModel 2 1 1 _ _ none hv⟩

/-- C2: in score mode, the output is a length-`b` vector whose `i`-th entry
is the dot product of the `i`-th normalized text latent with the `i`-th
normalized speech latent (no cross matrix), times `exp(temperature)`. -/
theorem score_mode_per_pair_dot (m : VoiceCLIP) (b Lt Ls : ℕ)
    (text speech_tokens : TokenBatch) (text_mask : Option Mask)
    (h : m.validCall b Lt Ls text speech_tokens) :
    m.forward b Lt Ls text speech_tokens text_mask false =
      some (FwdOut.scores (fun n =>
        dotRow m.cfg.dim_latent (m.textLatents b Lt text text_mask n)
          (m.speechLatents b Ls speech_tokens n) * Real.exp m.temperature)) := by
  simpa using m.forward_of_valid b Lt Ls text speech_tokens text_mask false h

/-- Witness for C2 at a concrete batch of size 1. -/
theorem score_mode_per_pair_dot_witness :
    oneModel.validCall 1 1 1 (fun _ _ => 0) (fun _ _ => 0) ∧
    oneModel.forward 1 1 1 (fun _ _ => 0) (fun _ _ => 0) none false =
      some (FwdOut.scores (fun n =>
        dotRow oneModel.cfg.dim_latent (oneModel.textLatents 1 1 (fun _ _ => 0) none n)
          (oneModel.speechLatents 1 1 (fun _ _ => 0) n) * Real.exp oneModel.temperature)) := by
  have hv : oneModel.validCall 1 1 1 (fun _ _ => 0) (fun _ _ => 0) := by decide
  exact ⟨hv, score_mode_per_pair_dot oneModel 1 1 1 _ _ none hv⟩

/-- C4: at construction the speech positional table has `num_speech_tokens`
rows (not `speech_seq_len`), while the text positional table has
`text_seq_len` rows; with the defaults those two sizes differ. -/
theorem pos_emb_table_sizes_at_init (cfg : CLIPConfig)
    (tW tpW sW spW : ℕ → ℕ → ℝ) (tTr : MaskedEncoder) (sTr : PlainEncoder)
    (lT lS : ℕ → ℕ → ℝ) :
    (VoiceCLIP.init cfg tW tpW sW spW tTr sTr lT lS).speech_pos_emb.numEmbeddings =
        cfg.num_speech_tokens ∧
    (VoiceCLIP.init cfg tW tpW sW spW tTr sTr lT lS).text_pos_emb.numEmbeddings =
        cfg.text_seq_len ∧
    defaultConfig.num_speech_tokens ≠ defaultConfig.speech_seq_len :=
  ⟨rfl, rfl, by decide⟩

/-- C5: masked-mean pooling with an all-`true` mask coincides with the plain
arithmetic mean over the sequence dimension. -/
theorem masked_mean_all_true_eq_mean (L : ℕ) (t : Tensor3) (mask : Mask)
    (h : ∀ i j, mask i j = true) :
    masked_mean L t mask = meanDim1 L t := by
  funext i k
  unfold masked_mean meanDim1
  simp [h]

/-- Witness for C5 on a concrete tensor and the constantly-`true` mask. -/
theorem masked_mean_all_true_eq_mean_witness :
    (∀ i j : ℕ, (fun _ _ : ℕ => true) i j = true) ∧
    masked_mean 2 (fun _ _ _ => (1 : ℝ)) (fun _ _ => true) =
      meanDim1 2 (fun _ _ _ => (1 : ℝ)) :=
  ⟨fun _ _ => rfl, masked_mean_all_true_eq_mean 2 _ _ (fun _ _ => rfl)⟩

/-- C9: a forward pass never mutates the model weights, and a second call
with identical inputs on the resulting state yields an identical output. -/
theorem forward_never_mutates_weights (m : VoiceCLIP) (b Lt Ls : ℕ)
    (text speech_tokens : TokenBatch) (text_mask : Option Mask) (return_loss : Bool) :
    (m.forwardRun b Lt Ls text speech_tokens text_mask return_loss).2 = m ∧
    ((m.forwardRun b Lt Ls text speech_tokens text_mask return_loss).2.forwardRun
        b Lt Ls text speech_tokens text_mask return_loss).1 =
      (m.forwardRun b Lt Ls text speech_tokens text_mask return_loss).1 :=
  ⟨rfl, rfl⟩

/-- C3 as stated is false: with a zero latent-projection weight matrix the
text latent produced by the projection + normalization step is the zero
vector, whose L2 norm is 0, not 1 (in floats, `F.normalize` divides by its
`eps` and likewise returns the zero vector). -/
theorem latent_unit_norm_counterexample :
    l2norm zeroProjModel.cfg.dim_latent
        (zeroProjModel.textLatents 1 1 (fun _ _ => 0) none 0) ≠ 1 := by
  have hz : l2norm zeroProjModel.cfg.dim_latent
      (zeroProjModel.textLatents 1 1 (fun _ _ => 0) none 0) = 0 := by
    simp [zeroProjModel, VoiceCLIP.init, tinyConfig, VoiceCLIP.textLatents,
      VoiceCLIP.textLatentPre, normalizeRows, normalizeRow, linearNoBias, meanDim1,
      l2norm, Finset.sum_range_one]
  rw [hz]
  norm_num

/-- C3 amended: every latent vector produced by the projection +
normalization step (text or speech path) has L2 norm exactly 1 provided its
pre-normalization projection has L2 norm at least the library epsilon of
`F.normalize`; a smaller projection (e.g. the zero vector) is divided by
`eps` instead and keeps a norm below 1. -/
theorem latent_unit_norm_amended (m : VoiceCLIP) (b Lt Ls : ℕ)
    (text speech_tokens : TokenBatch) (text_mask : Option Mask) (i : ℕ) :
    (normalizeEps ≤ l2norm m.cfg.dim_latent (m.textLatentPre b Lt text text_mask i) →
      l2norm m.cfg.dim_latent (m.textLatents b Lt text text_mask i) = 1) ∧
    (normalizeEps ≤ l2norm m.cfg.dim_latent (m.speechLatentPre b Ls speech_tokens i) →
      l2norm m.cfg.dim_latent (m.speechLatents b Ls speech_tokens i) = 1) :=
  ⟨fun h => l2norm_normalizeRow _ _ h, fun h => l2norm_normalizeRow _ _ h⟩

/-- Witness for the amended C3 on a concrete model whose pre-normalization
text latent has norm 1. -/
theorem latent_unit_norm_amended_witness :
    normalizeEps ≤ l2norm oneModel.cfg.dim_latent
        (oneModel.textLatentPre 1 1 (fun _ _ => 0) none 0) ∧
    l2norm oneModel.cfg.dim_latent (oneModel.textLatents 1 1 (fun _ _ => 0) none 0) = 1 := by
  have hn : l2norm oneModel.cfg.dim_latent
      (oneModel.textLatentPre 1 1 (fun _ _ => 0) none 0) = 1 := by
    simp [oneModel, VoiceCLIP.init, tinyConfig, VoiceCLIP.textLatentPre, linearNoBias,
      meanDim1, l2norm, Finset.sum_range_one]
  have h : normalizeEps ≤ l2norm oneModel.cfg.dim_latent
      (oneModel.textLatentPre 1 1 (fun _ _ => 0) none 0) := by
    rw [hn]
    norm_num [normalizeEps]
  exact ⟨h, (latent_unit_norm_amended oneModel 1 1 1 (fun _ _ => 0) (fun _ _ => 0) none 0).1 h⟩

/-- C6: an all-false text mask row makes masked-mean pooling divide by a
zero unmasked-position count (the float implementation's NaN/inf is this
division by zero), and nothing guards against it: the forward call still
returns a value rather than raising an error. -/
theorem degenerate_mask_divides_by_zero (m : VoiceCLIP) (b Lt Ls : ℕ)
    (text speech_tokens : TokenBatch) (mask : Mask) (return_loss : Bool) (i : ℕ)
    (hvalid : m.validCall b Lt Ls text speech_tokens)
    (hmask : ∀ j ∈ Finset.range Lt, mask i j = false) :
    (∑ j ∈ Finset.range Lt, if mask i j then (1 : ℝ) else 0) = 0 ∧
    (∀ t k, masked_mean Lt t mask i k =
      (∑ j ∈ Finset.range Lt, if mask i j then t i j k else 0) / 0) ∧
    ∃ out, m.forward b Lt Ls text speech_tokens (some mask) return_loss = some out := by
  have hzero : (∑ j ∈ Finset.range Lt, if mask i j then (1 : ℝ) else 0) = 0 :=
    Finset.sum_eq_zero fun j hj => by rw [hmask j hj]; simp
  refine ⟨hzero, fun t k => ?_, ?_⟩
  · unfold masked_mean
    rw [hzero]
  · exact ⟨_, m.forward_of_valid b Lt Ls text speech_tokens (some mask) return_loss hvalid⟩

/-- Witness for C6 with the all-false mask on a concrete valid call. -/
theorem degenerate_mask_divides_by_zero_witness :
    oneModel.validCall 1 1 1 (fun _ _ => 0) (fun _ _ => 0) ∧
    (∀ j ∈ Finset.range 1, (fun _ _ : ℕ => false) 0 j = false) ∧
    ((∑ j ∈ Finset.range 1, if (fun _ _ : ℕ => false) 0 j then (1 : ℝ) else 0) = 0 ∧
     (∀ t k, masked_mean 1 t (fun _ _ => false) 0 k =
       (∑ j ∈ Finset.range 1, if (fun _ _ : ℕ => false) 0 j then t 0 j k else 0) / 0) ∧
     ∃ out, oneModel.forward 1 1 1 (fun _ _ => 0) (fun _ _ => 0)
       (some (fun _ _ => false)) true = some out) := by
  have hv : oneModel.validCall 1 1 1 (fun _ _ => 0) (fun _ _ => 0) := by decide
  have hm : ∀ j ∈ Finset.range 1, (fun _ _ : ℕ => false) 0 j = false := by decide
  exact ⟨hv, hm,
    degenerate_mask_divides_by_zero oneModel 1 1 1 (fun _ _ => 0) (fun _ _ => 0)
      (fun _ _ => false) true 0 hv hm⟩

/-- C7: a batch of size 1 with return_loss = true does not fail and returns
exactly the loss 0. -/
theorem batch_one_loss_is_zero (m : VoiceCLIP) (Lt Ls : ℕ)
    (text speech_tokens : TokenBatch) (text_mask : Option Mask)
    (h : m.validCall 1 Lt Ls text speech_tokens) :
    m.forward 1 Lt Ls text speech_tokens text_mask true = some (FwdOut.loss 0) := by
  rw [m.forward_of_valid 1 Lt Ls text speech_tokens text_mask true h]
  simp [cross_entropy_one]

/-- Witness for C7 on a concrete singleton batch. -/
theorem batch_one_loss_is_zero_witness :
    oneModel.validCall 1 1 1 (fun _ _ => 0) (fun _ _ => 0) ∧
    oneModel.forward 1 1 1 (fun _ _ => 0) (fun _ _ => 0) none true =
      some (FwdOut.loss 0) := by
  have hv : oneModel.validCall 1 1 1 (fun _ _ => 0) (fun _ _ => 0) := by decide
  exact ⟨hv, batch_one_loss_is_zero oneModel 1 1 (fun _ _ => 0) (fun _ _ => 0) none hv⟩

/-- C8: a token id outside its modality's vocabulary makes that modality's
content-embedding lookup fail, and the forward call fails with no output
(the out-of-range indexing error), before any downstream computation can
produce a value. -/
theorem invalid_token_id_fails (m : VoiceCLIP) (b Lt Ls : ℕ)
    (text speech_tokens : TokenBatch) (text_mask : Option Mask) (return_loss : Bool)
    (h : (∃ i ∈ Finset.range b, ∃ j ∈ Finset.range Lt,
            m.text_emb.numEmbeddings ≤ text i j) ∨
         (∃ i ∈ Finset.range b, ∃ j ∈ Finset.range Ls,
            m.speech_emb.numEmbeddings ≤ speech_tokens i j)) :
    (embedBatch m.text_emb b Lt text = none ∨
     embedBatch m.speech_emb b Ls speech_tokens = none) ∧
    m.forward b Lt Ls text speech_tokens text_mask return_loss = none := by
  cases h with
  | inl hcase =>
    have hnot : ¬ ∀ i ∈ Finset.range b, ∀ j ∈ Finset.range Lt,
        text i j < m.text_emb.numEmbeddings := by
      push_neg
      exact hcase
    have hnone : embedBatch m.text_emb b Lt text = none := by
      unfold embedBatch
      rw [if_neg hnot]
    refine ⟨Or.inl hnone, ?_⟩
    unfold VoiceCLIP.forward
    rw [hnone, Option.none_bind]
  | inr hcase =>
    have hnot : ¬ ∀ i ∈ Finset.range b, ∀ j ∈ Finset.range Ls,
        speech_tokens i j < m.speech_emb.numEmbeddings := by
      push_neg
      exact hcase
    have hnone : embedBatch m.speech_emb b Ls speech_tokens = none := by
      unfold embedBatch
      rw [if_neg hnot]
    refine ⟨Or.inr hnone, ?_⟩
    unfold VoiceCLIP.forward
    simp only [hnone, Option.none_bind]
    cases embedBatch m.text_emb b Lt text <;>
      cases posEmbBatch m.text_pos_emb Lt <;> simp

/-- Witness for C8: text token id 5 with a text vocabulary of size 1. -/
theorem invalid_token_id_fails_witness :
    ((∃ i ∈ Finset.range 1, ∃ j ∈ Finset.range 1,
        oneModel.text_emb.numEmbeddings ≤ (fun _ _ : ℕ => 5) i j) ∨
     (∃ i ∈ Finset.range 1, ∃ j ∈ Finset.range 1,
        oneModel.speech_emb.numEmbeddings ≤ (fun _ _ : ℕ => 0) i j)) ∧
    ((embedBatch oneModel.text_emb 1 1 (fun _ _ => 5) = none ∨
      embedBatch oneModel.speech_emb 1 1 (fun _ _ => 0) = none) ∧
     oneModel.forward 1 1 1 (fun _ _ => 5) (fun _ _ => 0) none true = none) := by
  have h : (∃ i ∈ Finset.range 1, ∃ j ∈ Finset.range 1,
        oneModel.text_emb.numEmbeddings ≤ (fun _ _ : ℕ => 5) i j) ∨
      (∃ i ∈ Finset.range 1, ∃ j ∈ Finset.range 1,
        oneModel.speech_emb.numEmbeddings ≤ (fun _ _ : ℕ => 0) i j) := by
    left
    decide
  exact ⟨h, invalid_token_id_fails oneModel 1 1 1 (fun _ _ => 5) (fun _ _ => 0) none true h⟩

/-- C10: with the tables created by `__init__`, the position-index bound
differs per modality: a text sequence longer than `text_seq_len` fails at
the text positional lookup (and the whole call fails), while the speech
positional lookup succeeds for every length up to `num_speech_tokens` — in
particular, speech sequences longer than `speech_seq_len` do not fail at
the positional-embedding stage. -/
theorem positional_bound_asymmetry (cfg : CLIPConfig)
    (tW tpW sW spW : ℕ → ℕ → ℝ) (tTr : MaskedEncoder) (sTr : PlainEncoder)
    (lT lS : ℕ → ℕ → ℝ) :
    (∀ b Lt Ls text speech_tokens text_mask return_loss, cfg.text_seq_len < Lt →
      posEmbBatch (VoiceCLIP.init cfg tW tpW sW spW tTr sTr lT lS).text_pos_emb Lt = none ∧
      (VoiceCLIP.init cfg tW tpW sW spW tTr sTr lT lS).forward b Lt Ls text speech_tokens
        text_mask return_loss = none) ∧
    (∀ Ls, Ls ≤ cfg.num_speech_tokens →
      posEmbBatch (VoiceCLIP.init cfg tW tpW sW spW tTr sTr lT lS).speech_pos_emb Ls =
        some (fun j k => spW j k)) ∧
    (∀ Ls, cfg.speech_seq_len < Ls → Ls ≤ cfg.num_speech_tokens →
      posEmbBatch (VoiceCLIP.init cfg tW tpW sW spW tTr sTr lT lS).speech_pos_emb Ls ≠
        none) := by
  have hspeech : ∀ Ls, Ls ≤ cfg.num_speech_tokens →
      posEmbBatch (VoiceCLIP.init cfg tW tpW sW spW tTr sTr lT lS).speech_pos_emb Ls =
        some (fun j k => spW j k) := by
    intro Ls hLs
    unfold posEmbBatch
    rw [if_pos (show Ls ≤
      (VoiceCLIP.init cfg tW tpW sW spW tTr sTr lT lS).speech_pos_emb.numEmbeddings from hLs)]
    rfl
  refine ⟨?_, hspeech, ?_⟩
  · intro b Lt Ls text speech_tokens text_mask return_loss hLt
    have hpos : posEmbBatch (VoiceCLIP.init cfg tW tpW sW spW tTr sTr lT lS).text_pos_emb
        Lt = none := by
      unfold posEmbBatch
      rw [if_neg (show ¬ Lt ≤
        (VoiceCLIP.init cfg tW tpW sW spW tTr sTr lT lS).text_pos_emb.numEmbeddings from
        not_le.mpr hLt)]
    refine ⟨hpos, ?_⟩
    unfold VoiceCLIP.forward
    simp only [hpos, Option.none_bind]
    cases embedBatch (VoiceCLIP.init cfg tW tpW sW spW tTr sTr lT lS).text_emb b Lt text <;>
      simp
  · intro Ls _ hLs
    rw [hspeech Ls hLs]
    simp

/-- Witness for C10 at the default configuration: text length 201 > 200
fails, speech length 251 > 250 still passes the positional stage. -/
theorem positional_bound_asymmetry_witness :
    (defaultConfig.text_seq_len < 201 ∧
     posEmbBatch defaultModel.text_pos_emb 201 = none ∧
     defaultModel.forward 2 201 251 (fun _ _ => 0) (fun _ _ => 0) none true = none) ∧
    (251 ≤ defaultConfig.num_speech_tokens ∧ defaultConfig.speech_seq_len < 251 ∧
     posEmbBatch defaultModel.speech_pos_emb 251 = some (fun _ _ => (0 : ℝ)) ∧
     posEmbBatch defaultModel.speech_pos_emb 251 ≠ none) := by
  have h := positional_bound_asymmetry defaultConfig (fun _ _ => 0) (fun _ _ => 0)
    (fun _ _ => 0) (fun _ _ => 0) (fun _ _ x _ => x) (fun _ _ x => x)
    (fun _ _ => 0) (fun _ _ => 0)
  have h1 := h.1 2 201 251 (fun _ _ => 0) (fun _ _ => 0) none true (by decide)
  have h2 := h.2.1 251 (by decide)
  have h3 := h.2.2 251 (by decide) (by decide)
  exact ⟨⟨by decide, h1.1, h1.2⟩, by decide, by decide, h2, h3⟩

end VoiceClipModel

end
